import Mathlib

/-!
A shallow embedding, in Lean 4, of the layered address-translation and
symbolic-object core of the Volatility 3 memory-forensics framework
(`volatility/framework/interfaces/objects.py`,
`volatility/framework/objects/__init__.py`,
`volatility/framework/layers/vmware.py`,
`volatility/framework/layers/registry.py`), together with theorems that
settle the specification's claims about that code.

Python machine integers are modelled as `Nat` (the values involved are
unsigned decodes of raw bytes); Python `dict`/`ChainMap` lookups are
modelled as association lists searched in `ChainMap` order; exceptions
are modelled with `Except`.
-/

namespace Volatility

/-- A value stored in an object's `_vol` mapping.  Only the values the
claims inspect (integers and strings) are interpreted; `None` entries
(such as an absent `member_name` or `parent`) are carried as `vnone`. -/
inductive PyVal where
  | vnat : Nat → PyVal
  | vstr : String → PyVal
  | vnone : PyVal
deriving DecidableEq, Repr

/-- Association-list lookup, the model of a single Python `dict` probe. -/
def alookup (k : String) : List (String × PyVal) → Option PyVal
  | [] => none
  | (k', v) :: rest => if k = k' then some v else alookup k rest

/-- Model of `collections.ChainMap` lookup: the maps are searched left to right and
the first map containing the key supplies the value. -/
def chainLookup (k : String) : List (List (String × PyVal)) → Option PyVal
  | [] => none
  | m :: rest =>
    match alookup k m with
    | some v => some v
    | none => chainLookup k rest

/-- Model of `ObjectInformation` (`interfaces/objects.py`): the per-instance
construction data handed to every object constructor.  `member_name` and
`parent` are carried opaquely (they are never interpreted by the claims);
`native_layer_name` defaults to `layer_name` exactly as in the source. -/
structure ObjectInformation where
  layer_name : String
  offset : Nat
  member_name : Option String := none
  native_layer_name : Option String := none
deriving DecidableEq, Repr

/-- The dictionary held by an `ObjectInformation` (its `ReadOnlyMapping`
backing store).  The `parent` entry is rendered as `vnone`: no claim ever
reads it, and representing the parent object itself is not needed. -/
def ObjectInformation.toDict (info : ObjectInformation) : List (String × PyVal) :=
  [("layer_name", .vstr info.layer_name),
   ("offset", .vnat info.offset),
   ("member_name", match info.member_name with | some s => .vstr s | none => .vnone),
   ("parent", .vnone),
   ("native_layer_name", .vstr (match info.native_layer_name with
      | some s => s
      | none => info.layer_name))]

/-- Model of `ObjectInterface.__init__` (`interfaces/objects.py`, lines 93-111):
computes `normalized_offset = object_info.offset & mask` for the owning
layer's `address_mask` and builds
`ChainMap({}, object_info, {'type_name': ..., 'offset': normalized_offset}, kwargs)`.
The maps are kept in exactly that order. -/
def mkObjectVol (mask : Nat) (type_name : String) (info : ObjectInformation)
    (kwargs : List (String × PyVal)) : List (List (String × PyVal)) :=
  [[],
   info.toDict,
   [("type_name", .vstr type_name), ("offset", .vnat (info.offset &&& mask))],
   kwargs]

/-- Model of `object.vol.offset`: a lookup of `'offset'` through the object's
`_vol` chain map (`ReadOnlyMapping.__getattr__` simply forwards to the
underlying mapping). -/
def volOffset (maps : List (List (String × PyVal))) : Option PyVal :=
  chainLookup "offset" maps

/-- Model of `BitField.__new__` (`objects/__init__.py`, lines 307-318): the value of
the bit field is computed from the decoded base-integer value as
`(value >> start_bit) & ((1 << end_bit) - 1)`. -/
def bitFieldValue (value start_bit end_bit : Nat) : Nat :=
  (value >>> start_bit) &&& ((1 <<< end_bit) - 1)

/-- The bits of `value` in the half-open range `[start_bit, end_bit)`,
as the specification describes the bit-field extraction:
`(v >> start_bit)` masked to `end_bit - start_bit` bits. -/
def specBitFieldValue (value start_bit end_bit : Nat) : Nat :=
  (value >>> start_bit) &&& ((1 <<< (end_bit - start_bit)) - 1)

/-! ### Enumeration (`objects/__init__.py`, lines 346-405) -/

/-- The single error `Enumeration.__init__` raises while building the
inverse cache: `ValueError("Enumeration value ... duplicated ...")`. -/
inductive EnumError where
  | duplicateValue : EnumError
deriving DecidableEq, Repr

/-- Probe of the inverse-choices dictionary (`value -> name`). -/
def invLookup (v : Int) : List (Int × String) → Option String
  | [] => none
  | (v', n) :: rest => if v = v' then some n else invLookup v rest

/-- The loop of `Enumeration.__init__` (lines 369-378): iterate the
`choices` items in order, raising `ValueError` as soon as a value already
present in the inverse cache recurs, otherwise recording `v -> k`.
(`self._inverse_choices[v] = k` inserts a fresh key, so pushing the pair on
the front of the association list is an equivalent dictionary model.) -/
def buildInverse : List (String × Int) → List (Int × String) →
    Except EnumError (List (Int × String))
  | [], acc => .ok acc
  | (k, v) :: rest, acc =>
    match invLookup v acc with
    | some _ => .error .duplicateValue
    | none => buildInverse rest ((v, k) :: acc)

/-- Model of `Enumeration.__init__`: constructing an enumeration over `choices`
either yields the inverse cache or raises on a duplicated value. -/
def mkEnumeration (choices : List (String × Int)) :
    Except EnumError (List (Int × String)) :=
  buildInverse choices []

/-- Model of `Enumeration.lookup` (lines 383-387): returns the name cached for
`value`, raising `ValueError` for an undeclared value.  The undeclared
case is modelled as `.error`, distinct from any `.ok` name. -/
def enumLookup (inverse : List (Int × String)) (value : Int) : Except Unit String :=
  match invLookup value inverse with
  | some name => .ok name
  | none => .error ()

/-! ### Layers as byte sources, and `Pointer._struct_value` -/

/-- A leaf memory layer: a finite byte source with an `address_mask`.
`data` is the backing byte string (each entry one byte). -/
structure Layer where
  address_mask : Nat
  data : List Nat
deriving DecidableEq, Repr

/-- A bounds-checked read (`FileLayer`/`BufferLayer` semantics: an
out-of-bounds read raises, modelled as `none`). -/
def Layer.read (layer : Layer) (offset length : Nat) : Option (List Nat) :=
  if offset + length ≤ layer.data.length then
    some ((layer.data.drop offset).take length)
  else
    none

/-- Model of `struct.unpack` of an unsigned little-endian integer from its bytes
(the formats `<H`, `<I`, `<Q` used for integers and pointers). -/
def unpackLE : List Nat → Nat
  | [] => 0
  | b :: rest => b + 256 * unpackLE rest

/-- Model of `Pointer._struct_value` (`objects/__init__.py`, lines 228-243): reads
`length` bytes at `offset`, unpacks them, and returns `value & mask` where
`mask` is the layer's `address_mask`.  A failing read propagates. -/
def pointerStructValue (layer : Layer) (offset length : Nat) : Option Nat :=
  (layer.read offset length).map (fun data => unpackLE data &&& layer.address_mask)

/-! ### Array (`objects/__init__.py`, lines 430-524) -/

/-- The state of a constructed `Array` object: the owning layer's
`address_mask`, the construction `ObjectInformation`, the element count and
the element template's size.  (`__init__` stores `count` and `subtype` via
`self._vol[...] = ...`, which writes into the first map of the chain.) -/
structure ArrayObject where
  mask : Nat
  layer_name : String
  info : ObjectInformation
  type_name : String
  count : Nat
  subtype_size : Nat
deriving DecidableEq, Repr

/-- The `_vol` chain map of an `Array` as built by
`ObjectInterface.__init__` followed by `Array.__init__`'s two
`self._vol[...] = ...` writes (which land in the first, initially empty,
map of the chain). -/
def ArrayObject.volMaps (a : ArrayObject) : List (List (String × PyVal)) :=
  [[("count", .vnat a.count), ("subtype", .vnone)],
   a.info.toDict,
   [("type_name", .vstr a.type_name), ("offset", .vnat (a.info.offset &&& a.mask))],
   []]

/-- Model of `Array.__len__` (lines 519-521): `return self.vol.count`. -/
def ArrayObject.len (a : ArrayObject) : Option PyVal :=
  chainLookup "count" a.volMaps

/-- Model of `Array.__getitem__` (lines 500-517) for an integer index `i` with
`0 <= i < count`: the element object is constructed with
`ObjectInformation(layer_name = self.vol.layer_name,
offset = mask & (self.vol.offset + self.vol.subtype.size * index))`,
where `mask` is the array's layer's `address_mask` and `self.vol.offset`
is the array's own chain-map offset `arrOffset`. -/
def ArrayObject.getItemInfo (a : ArrayObject) (arrOffset i : Nat) : ObjectInformation :=
  { layer_name := a.layer_name
    offset := a.mask &&& (arrOffset + a.subtype_size * i) }

/-- The `_vol` chain map of the element produced by `Array.__getitem__`:
the subtype template constructs it through `ObjectInterface.__init__` on
the same layer (hence the same `address_mask`). -/
def ArrayObject.getItemVol (a : ArrayObject) (arrOffset i : Nat) :
    List (List (String × PyVal)) :=
  mkObjectVol a.mask a.type_name (a.getItemInfo arrOffset i) []

/-! ### VMware metadata layer (`layers/vmware.py`, `VmwareLayer._read_header`) -/

/-- Errors raised while `VmwareLayer._read_header` parses the metadata
layer: an out-of-bounds read of the (file-backed) meta layer, the
`ValueError` for wrong magic bytes, a missing dictionary key
(`groups[b"memory"]` or a missing tag), and the `ValueError` for a zero
`regionsCount`.  `fuelExhausted` marks a non-terminating tag loop and is
never produced on the concrete inputs considered. -/
inductive VmErr where
  | readError : VmErr
  | badMagic : VmErr
  | keyError : VmErr
  | noRegions : VmErr
  | fuelExhausted : VmErr
deriving DecidableEq, Repr

/-- Bounds-checked slice of the metadata bytes (a `FileLayer.read`). -/
def readSlice (data : List Nat) (offset length : Nat) : Except VmErr (List Nat) :=
  if offset + length ≤ data.length then
    .ok ((data.drop offset).take length)
  else
    .error .readError

/-- Reads one byte and applies `ord` to it (`meta_layer.read(offset, 1)`). -/
def readByte (data : List Nat) (offset : Nat) : Except VmErr Nat :=
  match data[offset]? with
  | some b => .ok b
  | none => .error .readError

/-- Reads a 4-byte little-endian unsigned int (`vmware!unsigned int`,
format `<I`, size 4 per `native.std_ctypes`). -/
def readU32 (data : List Nat) (offset : Nat) : Except VmErr Nat :=
  (readSlice data offset 4).map unpackLE

/-- ASCII bytes of a string literal, used to name groups and tags. -/
def asciiBytes (s : String) : List Nat :=
  s.data.map Char.toNat

/-- Reads group descriptor number `g` (format `"64sQQ"`, size 80: a
64-byte name, an 8-byte little-endian tag offset, 8 reserved bytes),
starting at `header_size + g * group_size` with `header_size = 12`.
The name is right-stripped of NUL bytes (`name.rstrip(b"\x00")`). -/
def readGroup (data : List Nat) (g : Nat) : Except VmErr (List Nat × Nat) := do
  let raw ← readSlice data (12 + g * 80) 80
  let name := ((raw.take 64).reverse.dropWhile (· = 0)).reverse
  let tag_location := unpackLE ((raw.drop 64).take 8)
  return (name, tag_location)

/-- Python `dict` lookup over insertion-ordered bindings: a later binding
for the same key overwrites an earlier one, so the *last* match wins. -/
def dictLookup {α β : Type} [DecidableEq α] (k : α) (l : List (α × β)) : Option β :=
  (l.reverse.find? (fun p => p.1 = k)).map Prod.snd

/-- One pass of the tag-reading `while` loop of `_read_header` (lines
60-78): read `flags` and `name_len`; stop on the `flags = 0, name_len = 0`
sentinel; otherwise read the name (a `vmware!string` of `max_length =
name_len`, which truncates at the first NUL), `(flags >> 6) & 3` index
fields of 4 bytes each, and a 4-byte data field, then advance.  The loop
is driven by `fuel` since a malformed input could fail to terminate. -/
def readTags (data : List Nat) :
    Nat → Nat → List ((List Nat × List Nat) × (Nat × Nat)) →
    Except VmErr (List ((List Nat × List Nat) × (Nat × Nat)))
  | 0, _, _ => .error .fuelExhausted
  | fuel + 1, offset, acc => do
    let flags ← readByte data offset
    let name_len ← readByte data (offset + 1)
    if flags = 0 ∧ name_len = 0 then
      return acc
    else do
      let nameRaw ← readSlice data (offset + 2) name_len
      let name := nameRaw.takeWhile (· ≠ 0)
      let indicies_len := (flags >>> 6) &&& 3
      let indicies ← (List.range indicies_len).mapM
        (fun index => readU32 data (offset + name_len + 2 + index * 4))
      let dataVal ← readU32 data (offset + 2 + name_len + indicies_len * 4)
      readTags data fuel (offset + 2 + name_len + indicies_len * 4 + 4)
        (acc ++ [((name, indicies), (flags, dataVal))])

/-- Tag-dictionary probe that raises `KeyError` when the key is absent
(`tags[("regionPPN", (region,))]` and friends). -/
def tagData (tags : List ((List Nat × List Nat) × (Nat × Nat)))
    (k : List Nat × List Nat) : Except VmErr Nat :=
  match dictLookup k tags with
  | some (_, dataVal) => .ok dataVal
  | none => .error .keyError

/-- Model of `VmwareLayer._read_header` (`layers/vmware.py`, lines 30-86):
unpacks the `"<4sII"` header, rejects any magic other than
`D2 BE D2 BE`, reads `groupCount` group descriptors, locates the
`"memory"` group's tag table, reads the tags, and converts each of the
`regionsCount` regions into one page-granularity segment
`(regionPPN * 0x1000, regionPageNum * 0x1000, regionSize * 0x1000)`
(`self._page_size = 0x1000`).  A zero `regionsCount` is rejected. -/
def readHeader (data : List Nat) : Except VmErr (List (Nat × Nat × Nat)) := do
  let hdr ← readSlice data 0 12
  let magic := hdr.take 4
  let groupCount := unpackLE ((hdr.drop 8).take 4)
  if magic ≠ [0xD2, 0xBE, 0xD2, 0xBE] then
    .error .badMagic
  else do
    let groups ← (List.range groupCount).mapM (readGroup data)
    match dictLookup (asciiBytes "memory") groups with
    | none => .error .keyError
    | some memory => do
      let tags ← readTags data (data.length + 1) memory []
      let regionsCount ← tagData tags (asciiBytes "regionsCount", [])
      if regionsCount = 0 then
        .error .noRegions
      else
        (List.range regionsCount).mapM (fun region => do
          let offset ← tagData tags (asciiBytes "regionPPN", [region])
          let mapped_offset ← tagData tags (asciiBytes "regionPageNum", [region])
          let length ← tagData tags (asciiBytes "regionSize", [region])
          return (offset * 0x1000, mapped_offset * 0x1000, length * 0x1000))

/-- Little-endian encoding helpers for building concrete metadata images. -/
def le32 (n : Nat) : List Nat :=
  [n % 256, n / 256 % 256, n / 65536 % 256, n / 16777216 % 256]

/-- An 8-byte little-endian encoding. -/
def le64 (n : Nat) : List Nat :=
  le32 (n % 4294967296) ++ le32 (n / 4294967296)

/-- One serialized tag record: flags, name length, name, 4-byte indices,
4-byte data value. -/
def tagRecord (flags : Nat) (name : String) (indicies : List Nat) (dataVal : Nat) :
    List Nat :=
  [flags, (asciiBytes name).length] ++ asciiBytes name ++
    (indicies.map le32).flatten ++ le32 dataVal

/-- A concrete VMware metadata image with the claimed shape: magic
`D2 BE D2 BE`, `groupCount = 1`, one group named `memory` whose tags start
at byte 92, and tags `regionsCount = 1`, `regionPPN(0) = 2`,
`regionPageNum(0) = 0`, `regionSize(0) = 4`, ended by the
`flags = 0, name_len = 0` sentinel. -/
def goodMeta : List Nat :=
  [0xD2, 0xBE, 0xD2, 0xBE] ++ le32 0 ++ le32 1 ++
    (asciiBytes "memory" ++ List.replicate 58 0) ++ le64 92 ++ le64 0 ++
    tagRecord 1 "regionsCount" [] 1 ++
    tagRecord 0x41 "regionPPN" [0] 2 ++
    tagRecord 0x41 "regionPageNum" [0] 0 ++
    tagRecord 0x41 "regionSize" [0] 4 ++
    [0, 0]

/-- The same image with a corrupted first magic byte. -/
def badMagicMeta : List Nat :=
  [0xD3, 0xBE, 0xD2, 0xBE] ++ goodMeta.drop 4

/-! ### Registry hive layer (`layers/registry.py`) -/

/-- Errors surfaced by the registry hive layer: the layer-specific
`RegistryInvalidIndex`, the `ValueError` raised by `mapping` on a
negative length, and the generic `InvalidAddressException` an object read
against the base layer may raise inside the directory/table walk. -/
inductive RegErr where
  | invalidIndex : RegErr
  | valueError : RegErr
  | invalidAddress : RegErr
deriving DecidableEq, Repr

/-- Model of `RegistryHive._mask` (`layers/registry.py`, lines 183-190):
the bits of `value` between `high_bit` and `low_bit` inclusive, still in
place: `value & ((2 ** (high_bit + 1) - 1) ^ (2 ** low_bit - 1))`. -/
def rmask (value high_bit low_bit : Nat) : Nat :=
  value &&& ((2 ^ (high_bit + 1) - 1) ^^^ (2 ^ low_bit - 1))

/-- The state of a constructed `RegistryHive` layer.  The two storage-map
maximum addresses and the (possibly re-homed) base layer name are captured
directly; `blockOffset volatile dir_index table_index` abstracts the chain
of object reads `self.hive.Storage[volatile].Map.Directory[dir_index]
.Table[table_index].get_block_offset()`, which walks structures resident
in the base layer and may itself fail with a generic invalid-address
error. -/
structure RegistryHive where
  maxaddr_volatile : Nat
  maxaddr_non_volatile : Nat
  base_layer : String
  blockOffset : Nat → Nat → Nat → Except RegErr Nat

/-- Model of `RegistryHive.get_maxaddr` (lines 93-94): selects the
volatile or non-volatile maximum address by the truthiness of
`volatile`. -/
def RegistryHive.get_maxaddr (h : RegistryHive) (volatile : Nat) : Nat :=
  if volatile ≠ 0 then h.maxaddr_volatile else h.maxaddr_non_volatile

/-- Model of `RegistryHive._translate` (lines 205-220): extract the
volatile bit (bit 31); raise `RegistryInvalidIndex` when the low 31 bits
exceed the selected maximum address; otherwise slice out the directory
index (bits 30-21), table index (bits 20-12) and sub-offset (bits 11-0)
and return `entry.get_block_offset() + suboffset`. -/
def RegistryHive.translate (h : RegistryHive) (offset : Nat) : Except RegErr Nat :=
  let volatile := rmask offset 31 31 >>> 31
  if offset &&& 0x7fffffff > h.get_maxaddr volatile then
    .error .invalidIndex
  else
    let dir_index := rmask offset 30 21 >>> 21
    let table_index := rmask offset 20 12 >>> 12
    let suboffset := rmask offset 11 0 >>> 0
    (h.blockOffset volatile dir_index table_index).map (· + suboffset)

/-- Model of `RegistryHive.mapping` (lines 222-232): raise `ValueError`
on a negative length, otherwise return the single tuple
`(offset, translated_offset, length, base_layer)` with no splitting and no
bounds check of the translated range. -/
def RegistryHive.mapping (h : RegistryHive) (offset : Nat) (length : Int) :
    Except RegErr (List (Nat × Nat × Int × String)) :=
  if length < 0 then
    .error .valueError
  else
    (h.translate offset).map (fun t => [(offset, t, length, h.base_layer)])

/-- Model of `RegistryHive.is_valid` (lines 239-242): `return True`. -/
def RegistryHive.is_valid (h : RegistryHive) (offset : Nat) (length : Nat := 1) :
    Bool :=
  true

/-! ### Templates (`interfaces/objects.py`, `Template`) -/

/-- The state of a `Template`: the construction `type_name`, the
construction keyword `arguments`, and the later `update_vol` additions.
In the source these are
`_vol = ChainMap(updates, self._arguments, {'type_name': type_name})`
where `updates` starts empty and `__init__`-time keywords live in
`self._arguments`. -/
structure Template where
  type_name : String
  arguments : List (String × PyVal)
  updates : List (String × PyVal)
deriving DecidableEq, Repr

/-- Model of `Template.__init__`: stores the keyword arguments; the first
(mutable) map of the chain starts empty. -/
def mkTemplate (type_name : String) (arguments : List (String × PyVal)) : Template :=
  { type_name := type_name, arguments := arguments, updates := [] }

/-- Lookup through `template._vol`, i.e.
`ChainMap(updates, arguments, {'type_name': ...})`. -/
def Template.volLookup (t : Template) (k : String) : Option PyVal :=
  chainLookup k [t.updates, t.arguments, [("type_name", .vstr t.type_name)]]

/-- Model of `Template.update_vol` (lines 273-275): `self._vol.update(...)`
writes into the chain's first map.  New bindings are pushed in front so a
later `update_vol` for the same key shadows an earlier one (keyword
dictionaries carry distinct keys, so order within one call is
immaterial). -/
def Template.update_vol (t : Template) (new_arguments : List (String × PyVal)) :
    Template :=
  { t with updates := new_arguments ++ t.updates }

/-- Model of `Template.clone` (lines 268-271):
`self.__class__(**self._vol.parents.new_child())`.  `parents` drops the
first map of the chain — exactly the map `update_vol` writes to — so the
flattened keywords are the original `arguments` plus `type_name`, which
the constructor re-splits. -/
def Template.clone (t : Template) : Template :=
  mkTemplate t.type_name t.arguments

/-- A concrete 4-element array of 8-byte elements at offset `0x1000` on a
layer with mask `0xffffffff`. -/
def arrayW : ArrayObject :=
  { mask := 0xffffffff
    layer_name := "layer"
    info := { layer_name := "layer", offset := 0x1000 }
    type_name := "test"
    count := 4
    subtype_size := 8 }

/-- A concrete hive whose storage maps are empty (both maximum addresses
are zero) and whose directory walk would resolve every index to block
offset 0. -/
def hive0 : RegistryHive :=
  { maxaddr_volatile := 0
    maxaddr_non_volatile := 0
    base_layer := "base"
    blockOffset := fun _ _ _ => .ok 0 }

/-- A concrete hive accepting the full 31-bit range, whose directory walk
resolves every index to block offset `0x1000`. -/
def hiveW : RegistryHive :=
  { maxaddr_volatile := 0x7fffffff
    maxaddr_non_volatile := 0x7fffffff
    base_layer := "base"
    blockOffset := fun _ _ _ => .ok 0x1000 }

/-! ## Theorems -/

/-- Whatever the mask, a `vol.offset` lookup through the chain map built
by `ObjectInterface.__init__` answers from the `object_info` map — which
holds the *unmasked* construction offset — because `object_info` precedes
the map holding `normalized_offset` in the chain. -/
theorem volOffset_mkObjectVol (mask : Nat) (type_name : String)
    (info : ObjectInformation) (kwargs : List (String × PyVal)) :
    volOffset (mkObjectVol mask type_name info kwargs) = some (.vnat info.offset) :=
  rfl

/-- C1: the claim says `vol.offset` equals the construction offset ANDed
with the owning layer's `address_mask`.  In the code the `ChainMap` places
`object_info` (which carries the raw `offset`) before the map carrying
`normalized_offset`, so `vol.offset` is the raw, unmasked offset: with
mask `0xffffffff` and offset `0x100000000`, `vol.offset` is `0x100000000`
while the masked value would be `0`. -/
theorem object_offset_not_masked_at_construction :
    volOffset (mkObjectVol 0xffffffff "test"
      { layer_name := "layer1", offset := 0x100000000 } []) =
      some (.vnat 0x100000000) ∧
    (0x100000000 : Nat) &&& 0xffffffff = 0 := by
  exact ⟨rfl, by decide⟩

/-- C2: the claim says a `BitField` value is the bits of the base value
in `[start_bit, end_bit)`.  The code computes
`(value >> start_bit) & ((1 << end_bit) - 1)` — the mask is `end_bit`
bits wide instead of `end_bit - start_bit` — so for base value `0x1F0`
with `start_bit = 4`, `end_bit = 8` it keeps bits `[4, 12)` and yields
`0x1F`, while the bits in `[4, 8)` are `0xF`. -/
theorem bitfield_keeps_bits_above_end_bit :
    bitFieldValue 0x1F0 4 8 = 0x1F ∧ specBitFieldValue 0x1F0 4 8 = 0xF ∧
    bitFieldValue 0x1F0 4 8 ≠ specBitFieldValue 0x1F0 4 8 := by
  refine ⟨by decide, by decide, by decide⟩

/-- C4: whatever address the raw bytes at a pointer's offset encode —
including values wider than the layer's address width — the value
produced by `Pointer._struct_value` is at most the layer's
`address_mask`, because the decoded value is ANDed with the mask. -/
theorem pointer_value_le_address_mask (layer : Layer) (offset length v : Nat)
    (h : pointerStructValue layer offset length = some v) :
    v ≤ layer.address_mask := by
  unfold pointerStructValue at h
  cases hr : layer.read offset length with
  | none => rw [hr] at h; exact absurd h (by simp)
  | some d =>
    rw [hr] at h
    have h2 : unpackLE d &&& layer.address_mask = v := Option.some.inj h
    exact h2 ▸ Nat.and_le_right

/-- Witness for C4 at a concrete two-byte layer: the bytes `34 12` decode
to `0x1234`, and masked by `address_mask = 0xff` the pointer value is
`0x34 ≤ 0xff`. -/
theorem pointer_value_le_address_mask_witness :
    pointerStructValue { address_mask := 0xff, data := [0x34, 0x12] } 0 2 =
      some 0x34 ∧
    (0x34 : Nat) ≤ (Layer.mk 0xff [0x34, 0x12]).address_mask :=
  ⟨by decide,
   pointer_value_le_address_mask (Layer.mk 0xff [0x34, 0x12]) 0 2 0x34 (by decide)⟩

set_option maxRecDepth 100000 in
/-- C6: parsing the concrete VMware metadata image with magic
`D2 BE D2 BE`, `groupCount = 1`, one group named `memory`, and tags
`regionsCount = 1`, `regionPPN = 2`, `regionPageNum = 0`,
`regionSize = 4` (page size `0x1000`) yields exactly the one segment
`(0x2000, 0, 0x4000)`; the same image with a different magic fails with
the wrong-magic validation error. -/
theorem vmware_segment_load :
    readHeader goodMeta = .ok [(0x2000, 0, 0x4000)] ∧
    readHeader badMagicMeta = .error .badMagic :=
  ⟨rfl, rfl⟩

/-- C10: `RegistryHive.is_valid` returns `True` for every offset and
length — the registry hive layer performs no validity check at all. -/
theorem registry_is_valid_always_true (h : RegistryHive) (offset length : Nat) :
    h.is_valid offset length = true :=
  rfl

/-- When the inverse-cache loop completes without raising, the values of
the choices were pairwise distinct and none of them was already cached. -/
theorem buildInverse_ok_sound (choices : List (String × Int)) :
    ∀ acc inv, buildInverse choices acc = .ok inv →
      (choices.map Prod.snd).Pairwise (· ≠ ·) ∧
      ∀ p ∈ choices, invLookup p.2 acc = none := by
  induction choices with
  | nil =>
    intro acc inv _
    simp
  | cons kv rest ih =>
    intro acc inv h
    obtain ⟨k, v⟩ := kv
    unfold buildInverse at h
    cases hlook : invLookup v acc with
    | some n =>
      rw [hlook] at h
      exact absurd h (by simp)
    | none =>
      rw [hlook] at h
      obtain ⟨hpw, hacc⟩ := ih ((v, k) :: acc) inv h
      have hne : ∀ p ∈ rest, p.2 ≠ v := by
        intro p hp
        have hmem := hacc p hp
        unfold invLookup at hmem
        intro heq
        rw [if_pos heq] at hmem
        exact absurd hmem (by simp)
      refine ⟨?_, ?_⟩
      · rw [List.map_cons, List.pairwise_cons]
        refine ⟨?_, hpw⟩
        intro v2 hv2
        obtain ⟨p, hp, rfl⟩ := List.mem_map.mp hv2
        exact fun hvv => hne p hp hvv.symm
      · intro p hp
        rcases List.mem_cons.mp hp with hhead | htail
        · rw [hhead]
          exact hlook
        · have hmem := hacc p htail
          unfold invLookup at hmem
          rw [if_neg (hne p htail)] at hmem
          exact hmem

/-- When the values of the choices are pairwise distinct and none is
already cached, the inverse-cache loop completes, every choice value maps
back to its name, and the earlier cache entries survive. -/
theorem buildInverse_ok_complete (choices : List (String × Int)) :
    ∀ acc, (choices.map Prod.snd).Pairwise (· ≠ ·) →
      (∀ p ∈ choices, invLookup p.2 acc = none) →
      ∃ inv, buildInverse choices acc = .ok inv ∧
        (∀ p ∈ choices, invLookup p.2 inv = some p.1) ∧
        (∀ x n, invLookup x acc = some n → invLookup x inv = some n) := by
  induction choices with
  | nil =>
    intro acc _ _
    exact ⟨acc, rfl, by simp, fun x n hx => hx⟩
  | cons kv rest ih =>
    intro acc hpw hnone
    obtain ⟨k, v⟩ := kv
    have hv : invLookup v acc = none := hnone (k, v) (List.mem_cons_self _ _)
    rw [List.map_cons, List.pairwise_cons] at hpw
    obtain ⟨hhead, htail⟩ := hpw
    have hrest : ∀ p ∈ rest, invLookup p.2 ((v, k) :: acc) = none := by
      intro p hp
      unfold invLookup
      have hne : p.2 ≠ v :=
        fun heq => hhead p.2 (List.mem_map.mpr ⟨p, hp, rfl⟩) heq.symm
      rw [if_neg hne]
      exact hnone p (List.mem_cons_of_mem _ hp)
    obtain ⟨inv, hinv, hall, hkeep⟩ := ih ((v, k) :: acc) htail hrest
    refine ⟨inv, ?_, ?_, ?_⟩
    · unfold buildInverse
      rw [hv]
      exact hinv
    · intro p hp
      rcases List.mem_cons.mp hp with hp1 | hp2
      · rw [hp1]
        exact hkeep v k (by unfold invLookup; rw [if_pos rfl])
      · exact hall p hp2
    · intro x n hx
      apply hkeep
      unfold invLookup
      by_cases hxv : x = v
      · rw [hxv] at hx
        rw [hx] at hv
        exact absurd hv (by simp)
      · rw [if_neg hxv]
        exact hx

/-- C3: constructing an `Enumeration` whose choices contain a duplicated
value raises `ValueError` eagerly in `__init__`, before any lookup; for
pairwise-distinct values construction succeeds and `lookup` returns the
declared name of every declared value. -/
theorem enumeration_duplicate_values_detected (choices : List (String × Int)) :
    (¬ (choices.map Prod.snd).Pairwise (· ≠ ·) →
      mkEnumeration choices = .error .duplicateValue) ∧
    ((choices.map Prod.snd).Pairwise (· ≠ ·) →
      ∃ inv, mkEnumeration choices = .ok inv ∧
        ∀ p ∈ choices, enumLookup inv p.2 = .ok p.1) := by
  constructor
  · intro hdup
    cases hres : mkEnumeration choices with
    | ok inv =>
      exact absurd (buildInverse_ok_sound choices [] inv hres).1 hdup
    | error e =>
      cases e
      rfl
  · intro hpw
    obtain ⟨inv, hinv, hall, _⟩ :=
      buildInverse_ok_complete choices [] hpw (by intro p _; rfl)
    refine ⟨inv, hinv, ?_⟩
    intro p hp
    unfold enumLookup
    rw [hall p hp]

/-- Witness for C3: `{a: 1, b: 1}` (two distinct names, one value) is
rejected at construction, while `{a: 1, b: 2}` constructs and both
declared values look up to their names. -/
theorem enumeration_duplicate_values_detected_witness :
    mkEnumeration [("a", 1), ("b", 1)] = .error .duplicateValue ∧
    ∃ inv, mkEnumeration [("a", 1), ("b", 2)] = .ok inv ∧
      ∀ p ∈ [("a", (1 : Int)), ("b", 2)], enumLookup inv p.2 = .ok p.1 :=
  ⟨(enumeration_duplicate_values_detected [("a", 1), ("b", 1)]).1 (by decide),
   (enumeration_duplicate_values_detected [("a", 1), ("b", 2)]).2 (by decide)⟩

/-- C5: an `Array` with `count` elements of size `subtype_size` reports
`len(array) = count`, and for every index `i < count` the element
constructed by `__getitem__` carries
`vol.offset = (array.vol.offset + i * subtype_size) & address_mask`
(`arrOff` being the array's own `vol.offset` as read from its chain
map). -/
theorem array_len_and_element_offsets (a : ArrayObject) (i arrOff : Nat)
    (hi : i < a.count)
    (hoff : chainLookup "offset" a.volMaps = some (.vnat arrOff)) :
    a.len = some (.vnat a.count) ∧
    volOffset (a.getItemVol arrOff i) =
      some (.vnat ((arrOff + i * a.subtype_size) &&& a.mask)) := by
  refine ⟨rfl, ?_⟩
  have h1 : volOffset (a.getItemVol arrOff i) =
      some (.vnat (a.mask &&& (arrOff + a.subtype_size * i))) :=
    volOffset_mkObjectVol a.mask a.type_name (a.getItemInfo arrOff i) []
  rw [h1, Nat.mul_comm a.subtype_size i, Nat.and_comm a.mask]

/-- Witness for C5 on a 4-element array of 8-byte elements at offset
`0x1000` under mask `0xffffffff`: the length is 4 and element 2 sits at
`0x1010`. -/
theorem array_len_and_element_offsets_witness :
    2 < 4 ∧
    (arrayW.len = some (.vnat 4) ∧
      volOffset (arrayW.getItemVol 0x1000 2) = some (.vnat 0x1010)) :=
  ⟨by decide, array_len_and_element_offsets arrayW 2 0x1000 (by decide) (by decide)⟩

/-- Extracting bits 31-31 and shifting right by 31 yields exactly the
offset's top (volatile) bit. -/
theorem rmask_top_bit (offset : Nat) :
    rmask offset 31 31 >>> 31 = (offset.testBit 31).toNat := by
  have h1 : ((2 : Nat) ^ (31 + 1) - 1) ^^^ (2 ^ 31 - 1) = 2 ^ 31 := by decide
  unfold rmask
  rw [h1, Nat.and_two_pow, Nat.shiftRight_eq_div_pow,
    Nat.mul_div_cancel _ (by positivity)]

/-- ANDing with `0x7fffffff` keeps exactly the low 31 bits. -/
theorem and_low31 (offset : Nat) : offset &&& 0x7fffffff = offset % 2 ^ 31 := by
  have h : (0x7fffffff : Nat) = 2 ^ 31 - 1 := by norm_num
  rw [h, Nat.and_pow_two_sub_one_eq_mod]

/-- C7: whenever the low 31 bits of a cell offset exceed the maximum
address of the address-space half selected by the offset's top (volatile)
bit, `RegistryHive._translate` raises the registry-specific
`RegistryInvalidIndex` error — not a generic translation error and not a
result. -/
theorem registry_translate_invalid_index (h : RegistryHive) (offset : Nat)
    (hover : (if offset.testBit 31 then h.maxaddr_volatile
      else h.maxaddr_non_volatile) < offset % 2 ^ 31) :
    h.translate offset = .error .invalidIndex := by
  have hcond : h.get_maxaddr (rmask offset 31 31 >>> 31) < offset &&& 0x7fffffff := by
    rw [and_low31, rmask_top_bit]
    cases hb : offset.testBit 31 with
    | false =>
      rw [hb] at hover
      simpa [RegistryHive.get_maxaddr] using hover
    | true =>
      rw [hb] at hover
      simpa [RegistryHive.get_maxaddr] using hover
  simp only [RegistryHive.translate]
  rw [if_pos hcond]

/-- Witness for C7: on a hive whose storage maps are empty, the volatile
offset `0x80000001` (low 31 bits equal to 1) is rejected with the
invalid-index error. -/
theorem registry_translate_invalid_index_witness :
    ((if (0x80000001 : Nat).testBit 31 then hive0.maxaddr_volatile
      else hive0.maxaddr_non_volatile) < 0x80000001 % 2 ^ 31) ∧
    hive0.translate 0x80000001 = .error .invalidIndex :=
  ⟨by decide, registry_translate_invalid_index hive0 0x80000001 (by decide)⟩

/-- Counterexample for C9: at offset 1 (within no storage map: both
maximum addresses of `hive0` are 0) and the non-negative length 0,
`mapping` neither raises `ValueError` nor returns a mapping tuple — it
propagates the `RegistryInvalidIndex` error from `_translate`. -/
theorem registry_mapping_raises_beyond_maxaddr :
    hive0.mapping 1 0 = .error .invalidIndex ∧
    RegErr.invalidIndex ≠ RegErr.valueError :=
  ⟨rfl, by decide⟩

/-- C9 (amended): `mapping` raises `ValueError` exactly when the length
is negative; for a non-negative length it returns exactly the one tuple
`(offset, translated_offset, length, base_layer)` when `_translate`
succeeds, and propagates the translation error (such as
`RegistryInvalidIndex`) when it does not.  It never splits a request and
never bounds-checks the translated range. -/
theorem registry_mapping_single_tuple (h : RegistryHive) (offset : Nat)
    (length : Int) :
    (length < 0 → h.mapping offset length = .error .valueError) ∧
    (0 ≤ length → ∀ t, h.translate offset = .ok t →
      h.mapping offset length = .ok [(offset, t, length, h.base_layer)]) ∧
    (0 ≤ length → ∀ e, h.translate offset = .error e →
      h.mapping offset length = .error e) := by
  refine ⟨fun hl => ?_, fun hl t ht => ?_, fun hl e he => ?_⟩
  · simp only [RegistryHive.mapping]
    rw [if_pos hl]
  · simp only [RegistryHive.mapping]
    rw [if_neg (not_lt.mpr hl), ht]
    rfl
  · simp only [RegistryHive.mapping]
    rw [if_neg (not_lt.mpr hl), he]
    rfl

/-- Witness for C9 (amended): on `hiveW`, offset `0x18` translates to
`0x1018` and `mapping` returns exactly one tuple covering the whole
length 5. -/
theorem registry_mapping_single_tuple_witness :
    (0 : Int) ≤ 5 ∧ hiveW.translate 0x18 = .ok 0x1018 ∧
    hiveW.mapping 0x18 5 = .ok [(0x18, 0x1018, 5, "base")] :=
  ⟨by decide, rfl,
   (registry_mapping_single_tuple hiveW 0x18 5).2.1 (by decide) 0x1018 rfl⟩

/-- C8: cloning a template after `update_vol` yields the template as
originally constructed — every construction keyword keeps its original
value in the clone, and every parameter added only by `update_vol` is
absent from the clone. -/
theorem template_clone_preserves_construction_args (type_name : String)
    (args extras : List (String × PyVal)) (k : String) :
    ((mkTemplate type_name args).update_vol extras).clone =
      mkTemplate type_name args ∧
    (∀ v, alookup k args = some v →
      ((mkTemplate type_name args).update_vol extras).clone.volLookup k = some v) ∧
    (∀ w, alookup k extras = some w → alookup k args = none → k ≠ "type_name" →
      ((mkTemplate type_name args).update_vol extras).clone.volLookup k = none) := by
  refine ⟨rfl, fun v hv => ?_, fun w _ hnone hk => ?_⟩
  · show chainLookup k [[], args, [("type_name", .vstr type_name)]] = some v
    simp only [chainLookup, alookup]
    rw [hv]
  · show chainLookup k [[], args, [("type_name", .vstr type_name)]] = none
    simp only [chainLookup, alookup]
    rw [hnone, if_neg hk]

/-- Witness for C8: constructing with `{a: 1}` and updating with
`{b: 2}`, the clone still maps `a` to 1 and does not know `b`. -/
theorem template_clone_preserves_construction_args_witness :
    ((mkTemplate "T" [("a", .vnat 1)]).update_vol [("b", .vnat 2)]).clone.volLookup "a"
      = some (.vnat 1) ∧
    ((mkTemplate "T" [("a", .vnat 1)]).update_vol [("b", .vnat 2)]).clone.volLookup "b"
      = none :=
  ⟨(template_clone_preserves_construction_args "T" _ _ "a").2.1 (.vnat 1) (by decide),
   (template_clone_preserves_construction_args "T" _ _ "b").2.2 (.vnat 2)
     (by decide) (by decide) (by decide)⟩

end Volatility
